import Mathlib

/-!
Shallow embedding of `src/page.py` (a Flask/flask-sock multiplayer presence
relay).  The module-level registry dicts `clients`, `positions`, `sprites`,
`names` and the counter `name_counter` are modelled as one `ServerState`;
Python dicts preserve insertion order, so each dict is an association list
(insertion appends, in-place update keeps the position, deletion filters).
Decoded JSON payloads are modelled by `JVal`; a subscript `data[k]` that would
raise (missing key, or non-dict value) is modelled by `jget` returning `none`.
Outbound frames are the structured messages the code passes to `json.dumps`;
a send that raises is modelled by a `fails : Id -> Out -> Bool` oracle, and a
loop records the pair `(recipient, message)` only for sends that succeed.
-/

abbrev Id' := Nat

/-- Decoded JSON values (the result of `json.loads`). -/
inductive JVal where
  | num (n : Int)
  | str (s : String)
  | obj (fields : List (String × JVal))
  | arr (elems : List JVal)


/-- `v[k]` for a string key `k`: `some` field value on a dict that has the
key, `none` when Python would raise (`KeyError` on a dict missing the key,
`TypeError` on a non-dict value). -/
def jget (v : JVal) (k : String) : Option JVal :=
  match v with
  | JVal.obj fields => (fields.find? (fun p => p.1 == k)).map (fun p => p.2)
  | _ => none

/-- Association-list lookup, first match (Python dict lookup). -/
def lookupA {α : Type} (m : List (Id' × α)) (k : Id') : Option α :=
  (m.find? (fun p => p.1 == k)).map (fun p => p.2)

/-- `d[k] = v`: replace in place when the key is present (keeping its
position, as a Python dict does), append otherwise. -/
def setA {α : Type} (m : List (Id' × α)) (k : Id') (v : α) : List (Id' × α) :=
  if m.any (fun p => p.1 == k) then
    m.map (fun p => if p.1 == k then (k, v) else p)
  else m ++ [(k, v)]

/-- `del d[k]` / `d.pop(k, None)`: drop the entry for `k`. -/
def eraseA {α : Type} (m : List (Id' × α)) (k : Id') : List (Id' × α) :=
  m.filter (fun p => p.1 ≠ k)

/-- Outbound frames (the dicts the code serialises with `json.dumps`). -/
inductive Out where
  | ping
  | error (message : String) (raw : Option String)
  | new_player (id : Id') (x y : JVal) (sprite : JVal) (name : JVal)
  | move (id : Id') (x y : JVal)
  | chat (id : Id') (name : JVal) (message : JVal) (style : JVal)
  | update_sprite (id : Id') (sprite : JVal)
  | update_name (id : Id') (name : JVal)
  | user_names (users : List JVal)


/-- One inbound frame as seen by the receive loop (`page.py` lines 136-142):
`ws.receive()` returned `None`, `json.loads` raised, or a decoded value. -/
inductive Frame where
  | closed
  | malformed (raw : String)
  | value (v : JVal)


/-- The module-level registry (`page.py` lines 34-39).  `clients` keeps only
the ordered key list: a websocket object is identified by its id, and a send
to it is recorded as a `(recipient id, message)` pair. -/
structure ServerState where
  clients : List Id'
  positions : List (Id' × JVal)
  sprites : List (Id' × JVal)
  names : List (Id' × JVal)
  name_counter : Nat


/-- The empty registry the module starts with (`name_counter = 1`). -/
def initState : ServerState := ⟨[], [], [], [], 1⟩

/-- Send oracle: `fails o m = true` means `ws.send` raises when message `m`
is sent to the connection with id `o`. -/
def failsNone : Id' → Out → Bool := fun _ _ => false

/-- A fan-out loop whose body is `try: other_ws.send(...) except: pass`
(`page.py` lines 105-117, 168-178, 181-191, 197-206, 213-222, 237-244 and
77-84): every recipient is attempted, a raising send is swallowed and the
loop moves on; the delivered pairs are returned in order. -/
def trySendAll (fails : Id' → Out → Bool) (recips : List Id') (m : Out) :
    List (Id' × Out) :=
  recips.filterMap (fun o => if fails o m then none else some (o, m))

/-- The replay loop (`page.py` lines 120-132): the whole `for` loop over
`positions.items()` sits under a single `try: ... except: pass`, so the
first raise — a failing `ws.send` to the newcomer, or a lookup that raises —
abandons the rest of the loop. -/
def replayLoop (fails : Id' → Out → Bool) (st : ServerState) (cid : Id') :
    List (Id' × JVal) → List (Id' × Out)
  | [] => []
  | (oid, pos) :: rest =>
    if oid = cid then replayLoop fails st cid rest
    else
      match jget pos "x", jget pos "y",
            lookupA st.sprites oid, lookupA st.names oid with
      | some px, some py, some sp, some nm =>
        let m := Out.new_player oid px py sp nm
        if fails cid m then [] else (cid, m) :: replayLoop fails st cid rest
      | _, _, _, _ => []

/-- Connection handshake (`page.py` lines 94-132): register the session with
the default position/sprite and the next sequential display name, announce
it to every other client (each send individually guarded), then replay every
other session's state to the newcomer (one guard around the whole loop). -/
def connect (fails : Id' → Out → Bool) (st : ServerState) (cid : Id') :
    ServerState × List (Id' × Out) :=
  let pos := JVal.obj [("x", JVal.num 100), ("y", JVal.num 100)]
  let nm := JVal.str ("Player" ++ toString st.name_counter)
  let st' : ServerState :=
    { clients := st.clients ++ [cid]
      positions := setA st.positions cid pos
      sprites := setA st.sprites cid (JVal.str "new player")
      names := setA st.names cid nm
      name_counter := st.name_counter + 1 }
  let ann :=
    match lookupA st'.positions cid, lookupA st'.sprites cid,
          lookupA st'.names cid with
    | some p, some sp, some n =>
      match jget p "x", jget p "y" with
      | some px, some py =>
        trySendAll fails (st'.clients.filter (fun o => o ≠ cid))
          (Out.new_player cid px py sp n)
      | _, _ => []
    | _, _, _ => []
  (st', ann ++ replayLoop fails st' cid st'.positions)

/-- The dispatch `data['type'] == 'move' / 'chat' / ...` recognises exactly
these four string tags (`page.py` lines 164, 179, 193, 208). -/
def recognizedType (t : JVal) : Bool :=
  match t with
  | JVal.str s =>
    s == "move" || s == "chat" || s == "update_sprite" || s == "update_name"
  | _ => false

/-- One iteration of the receive loop (`page.py` lines 135-223) applied to a
registered session `cid` and one inbound frame.  Returns the registry after
the iteration, the messages delivered during it, and `true` when the loop
continues (`false` models `break` or an exception escaping to the handler at
line 224, both of which fall into the `finally` close path). -/
def handleFrame (fails : Id' → Out → Bool) (st : ServerState) (cid : Id')
    (f : Frame) : ServerState × List (Id' × Out) × Bool :=
  match f with
  | Frame.closed => (st, [], false)
  | Frame.malformed raw =>
    -- lines 142-153: warn, reply with a structured error (itself guarded), continue
    let reply := Out.error "invalid_json" (some (raw.take 200))
    (st, if fails cid reply then [] else [(cid, reply)], true)
  | Frame.value v =>
    match jget v "type" with
    | none => (st, [], false)  -- data['type'] raises → caught at line 224 → close
    | some t =>
      match t with
      | JVal.str s =>
        if s = "move" then
          -- lines 164-178
          match jget v "x", jget v "y" with
          | some vx, some vy =>
            ({ st with
                positions := setA st.positions cid
                  (JVal.obj [("x", vx), ("y", vy)]) },
             trySendAll fails (st.clients.filter (fun o => o ≠ cid))
               (Out.move cid vx vy),
             true)
          | _, _ => (st, [], false)  -- KeyError before the assignment → close
        else if s = "chat" then
          -- lines 179-192: the per-recipient dict rebuilds names[client_id]
          -- and data['message'] inside the guarded send, so a failing lookup
          -- skips every recipient; the log line at 192 re-reads
          -- data['message'] outside any guard.
          let sty := (jget v "style").getD (JVal.obj [])
          let msgs :=
            match lookupA st.names cid, jget v "message" with
            | some nm, some mv =>
              trySendAll fails st.clients (Out.chat cid nm mv sty)
            | _, _ => []
          match jget v "message" with
          | some _ => (st, msgs, true)
          | none => (st, msgs, false)
        else if s = "update_sprite" then
          -- lines 193-207
          match jget v "sprite" with
          | some sp =>
            ({ st with sprites := setA st.sprites cid sp },
             trySendAll fails (st.clients.filter (fun o => o ≠ cid))
               (Out.update_sprite cid sp),
             true)
          | none => (st, [], false)
        else if s = "update_name" then
          -- lines 208-223
          match jget v "name" with
          | some nv =>
            ({ st with names := setA st.names cid nv },
             trySendAll fails (st.clients.filter (fun o => o ≠ cid))
               (Out.update_name cid nv),
             true)
          | none => (st, [], false)
        else (st, [], true)  -- unrecognised tag: falls through the elif chain
      | _ => (st, [], true)  -- non-string tag compares unequal to every tag

/-- The `finally` close path (`page.py` lines 226-244): guarded deletion of
the session from all four dicts, then an unconditional `user_names` roster
broadcast to the clients that remain. -/
def closeSession (fails : Id' → Out → Bool) (st : ServerState) (cid : Id') :
    ServerState × List (Id' × Out) :=
  let st' : ServerState :=
    { clients :=
        if cid ∈ st.clients then st.clients.filter (fun o => o ≠ cid)
        else st.clients
      positions :=
        if (lookupA st.positions cid).isSome then eraseA st.positions cid
        else st.positions
      sprites :=
        if (lookupA st.sprites cid).isSome then eraseA st.sprites cid
        else st.sprites
      names :=
        if (lookupA st.names cid).isSome then eraseA st.names cid
        else st.names
      name_counter := st.name_counter }
  (st', trySendAll fails st'.clients (Out.user_names (st'.names.map (fun p => p.2))))

/-- The sweeper's removal-and-notify block (`page.py` lines 58-84), written
out separately because the source duplicates the close logic rather than
calling it: guarded `del` from `clients`/`positions`/`sprites`, a guarded
`names.pop`, then a `user_names` roster broadcast over a snapshot of the
remaining clients. -/
def sweepEvict (fails : Id' → Out → Bool) (st : ServerState) (cid : Id') :
    ServerState × List (Id' × Out) :=
  let clients' :=
    if cid ∈ st.clients then st.clients.filter (fun o => o ≠ cid)
    else st.clients
  let positions' :=
    if (lookupA st.positions cid).isSome then eraseA st.positions cid
    else st.positions
  let sprites' :=
    if (lookupA st.sprites cid).isSome then eraseA st.sprites cid
    else st.sprites
  let names' :=
    if (lookupA st.names cid).isSome then eraseA st.names cid else st.names
  let st' : ServerState :=
    ⟨clients', positions', sprites', names', st.name_counter⟩
  (st', trySendAll fails st'.clients (Out.user_names (st'.names.map (fun p => p.2))))

/-- One probe of the sweeper loop body (`page.py` lines 53-84): send a
`ping`; when the send raises, run the removal-and-notify block. -/
def sweepStep (fails : Id' → Out → Bool)
    (acc : ServerState × List (Id' × Out)) (cid : Id') :
    ServerState × List (Id' × Out) :=
  if fails cid Out.ping then
    let r := sweepEvict fails acc.1 cid
    (r.1, acc.2 ++ r.2)
  else (acc.1, acc.2 ++ [(cid, Out.ping)])

/-- One sweeper tick (`page.py` lines 51-84): iterate a snapshot
`list(clients.items())` taken at the start of the tick. -/
def sweepTick (fails : Id' → Out → Bool) (st : ServerState) :
    ServerState × List (Id' × Out) :=
  st.clients.foldl (sweepStep fails) (st, [])

/-- Connection lifecycle events for the registry-size invariant: a completed
`Connecting → Active` registration (the handshake at `page.py` lines 94-100)
or a completed `Closing → Closed` removal (the `finally` block at 226-244). -/
inductive Ev where
  | conn (cid : Id')
  | disc (cid : Id')

/-- Apply one lifecycle event to the registry. -/
def stepEv (fails : Id' → Out → Bool) (st : ServerState) : Ev → ServerState
  | Ev.conn cid => (connect fails st cid).1
  | Ev.disc cid => (closeSession fails st cid).1

/-- Run a sequence of lifecycle events. -/
def runEv (fails : Id' → Out → Bool) (st : ServerState) : List Ev → ServerState
  | [] => st
  | e :: tr => runEv fails (stepEv fails st e) tr

/-- Well-formed event sequences: a registration uses a fresh id (`id(ws)` is
unique among live connections) and a removal closes a currently registered
session, so each event is a completed transition of a distinct session. -/
def wfTrace (st : ServerState) : List Ev → Bool
  | [] => true
  | Ev.conn cid :: tr =>
    decide (cid ∉ st.clients) && wfTrace (stepEv failsNone st (Ev.conn cid)) tr
  | Ev.disc cid :: tr =>
    decide (cid ∈ st.clients) && wfTrace (stepEv failsNone st (Ev.disc cid)) tr

/-- Number of completed registrations in a trace. -/
def numConns (tr : List Ev) : Nat :=
  tr.countP (fun e => match e with | Ev.conn _ => true | _ => false)

/-- Number of completed removals in a trace. -/
def numDiscs (tr : List Ev) : Nat :=
  tr.countP (fun e => match e with | Ev.disc _ => true | _ => false)

/-!
Fan-out under a concurrent registry mutation.  The handler's broadcast loops
(`page.py` lines 105, 168, 181, 197, 213, 237) iterate `clients.items()` —
the live dict.  In CPython, a `for` loop over a dict whose size is changed
by another thread raises `RuntimeError` at the next step of the iterator, so
a concurrent `del clients[id]` (the sweeper's eviction, line 61, or another
connection's `finally` block) aborts the fan-out; the raise escapes the
per-send `try/except`, which only wraps the loop body.  The sweeper's loops
(lines 53 and 77) iterate `list(clients.items())`, a materialised snapshot
that a concurrent mutation cannot touch.  `mutAt` is the number of loop
iterations completed before the concurrent size-changing mutation lands; if
the loop finishes first (`mutAt` at least the length), nothing is disturbed.
-/

/-- Fan-out over the live dict: deliver `m` to each member except `skip`,
aborting with `true` when the concurrent mutation lands before the iterator
is exhausted (the next `next()` raises `RuntimeError`). -/
def fanLiveGo (skip : Id') (m : Out) : List Id' → Nat → List (Id' × Out) × Bool
  | [], _ => ([], false)
  | _ :: _, 0 => ([], true)
  | o :: rest, Nat.succ k =>
    let p := fanLiveGo skip m rest k
    (if o = skip then p.1 else (o, m) :: p.1, p.2)

/-- The handler-style fan-out loop (`for other_id, other_ws in
clients.items()`) run against a concurrent size-changing mutation. -/
def fanLive (clients0 : List Id') (skip : Id') (m : Out) (mutAt : Nat) :
    List (Id' × Out) × Bool :=
  fanLiveGo skip m clients0 mutAt

/-- Fan-out over a materialised snapshot (`list(clients.items())`): the
concurrent mutation does not affect the copy being iterated. -/
def fanSnapGo (skip : Id') (m : Out) : List Id' → List (Id' × Out)
  | [] => []
  | o :: rest =>
    if o = skip then fanSnapGo skip m rest else (o, m) :: fanSnapGo skip m rest

/-- The sweeper-style fan-out loop run against the same concurrent mutation:
it delivers to the whole snapshot and never aborts. -/
def fanSnap (clients0 : List Id') (skip : Id') (m : Out) (_mutAt : Nat) :
    List (Id' × Out) × Bool :=
  (fanSnapGo skip m clients0, false)

/-- Registry well-formedness, true of every reachable state: the client list
has no duplicate ids, the three data dicts have exactly the clients as keys
(in the same insertion order), and every stored position is an object with
`x` and `y` fields (both `connect` and the `move` handler store such). -/
def WF (st : ServerState) : Prop :=
  st.clients.Nodup ∧
  st.positions.map (fun p => p.1) = st.clients ∧
  st.sprites.map (fun p => p.1) = st.clients ∧
  st.names.map (fun p => p.1) = st.clients ∧
  ∀ q ∈ st.positions, (jget q.2 "x").isSome ∧ (jget q.2 "y").isSome

/-- `true` exactly on roster (`user_names`) messages. -/
def isRosterMsg (m : Out) : Bool :=
  match m with | Out.user_names _ => true | _ => false

/-! Helper lemmas about the association-list registry operations. -/

theorem trySendAll_failsNone (recips : List Id') (m : Out) :
    trySendAll failsNone recips m = recips.map (fun o => (o, m)) := by
  induction recips with
  | nil => rfl
  | cons a l ih => simp [trySendAll, failsNone, List.filterMap_cons] at ih ⊢; exact ih

theorem trySendAll_eq_filter (fails : Id' → Out → Bool) (recips : List Id')
    (m : Out) :
    trySendAll fails recips m =
      (recips.filter (fun o => !(fails o m))).map (fun o => (o, m)) := by
  induction recips with
  | nil => rfl
  | cons a l ih =>
    by_cases h : fails a m
    · simp [trySendAll, List.filterMap_cons, List.filter_cons, h] at ih ⊢; exact ih
    · simp [trySendAll, List.filterMap_cons, List.filter_cons,
        Bool.not_eq_true', h] at ih ⊢
      exact ih

theorem mem_trySendAll {fails : Id' → Out → Bool} {recips : List Id'}
    {m : Out} {o : Id'} (ho : o ∈ recips) (hf : fails o m = false) :
    (o, m) ∈ trySendAll fails recips m := by
  rw [trySendAll_eq_filter]
  exact List.mem_map_of_mem _ (List.mem_filter.mpr ⟨ho, by simp [hf]⟩)

theorem setA_fresh {α : Type} (m : List (Id' × α)) (k : Id') (v : α)
    (h : k ∉ m.map (fun p => p.1)) : setA m k v = m ++ [(k, v)] := by
  rw [setA, if_neg]
  simp only [List.any_eq_true, beq_iff_eq, not_exists, not_and]
  intro p hp
  intro hk
  exact h (hk ▸ List.mem_map_of_mem _ hp)

theorem lookupA_append_self {α : Type} (m : List (Id' × α)) (k : Id') (v : α)
    (h : k ∉ m.map (fun p => p.1)) :
    lookupA (m ++ [(k, v)]) k = some v := by
  induction m with
  | nil => simp [lookupA, List.find?]
  | cons a l ih =>
    simp only [List.map_cons, List.mem_cons, not_or] at h
    have : (a.1 == k) = false := by
      simp only [beq_eq_false_iff_ne]; exact fun e => h.1 e.symm
    simp only [lookupA, List.cons_append, List.find?, this]
    exact ih h.2

theorem lookupA_append_left {α : Type} (m l : List (Id' × α)) (k : Id')
    (h : (lookupA m k).isSome) : lookupA (m ++ l) k = lookupA m k := by
  induction m with
  | nil => simp [lookupA] at h
  | cons a t ih =>
    by_cases hk : a.1 == k
    · simp [lookupA, List.find?, hk]
    · simp only [lookupA, List.cons_append, List.find?, hk] at h ⊢
      exact ih h

theorem lookupA_isSome_of_mem_keys {α : Type} (m : List (Id' × α)) (k : Id')
    (h : k ∈ m.map (fun p => p.1)) : (lookupA m k).isSome := by
  induction m with
  | nil => simp at h
  | cons a t ih =>
    by_cases hk : a.1 == k
    · simp [lookupA, List.find?, hk]
    · simp only [List.map_cons, List.mem_cons] at h
      rcases h with h | h
      · exact absurd (by simp [h]) hk
      · simpa [lookupA, List.find?, hk] using ih h

theorem lookupA_eraseA_self {α : Type} (m : List (Id' × α)) (k : Id') :
    lookupA (eraseA m k) k = none := by
  unfold lookupA eraseA
  rw [List.find?_eq_none.mpr]
  · rfl
  · intro p hp
    have := (List.mem_filter.mp hp).2
    simp only [ne_eq, decide_not, Bool.not_eq_true', decide_eq_false_iff_not] at this
    simp [this]

theorem lookupA_condErase {α : Type} (m : List (Id' × α)) (k : Id') :
    lookupA (if (lookupA m k).isSome then eraseA m k else m) k = none := by
  by_cases h : (lookupA m k).isSome
  · rw [if_pos h]; exact lookupA_eraseA_self m k
  · rw [if_neg h]; exact Option.not_isSome_iff_eq_none.mp h

theorem not_mem_condFilter (c : List Id') (k : Id') :
    k ∉ (if k ∈ c then c.filter (fun o => o ≠ k) else c) := by
  by_cases h : k ∈ c
  · rw [if_pos h]
    intro hm
    have := (List.mem_filter.mp hm).2
    simp at this
  · rw [if_neg h]; exact h

theorem closeSession_not_mem (fails : Id' → Out → Bool) (st : ServerState)
    (cid : Id') : cid ∉ ((closeSession fails st cid).1).clients :=
  not_mem_condFilter st.clients cid

/-- The sweeper's removal-and-notify block computes exactly the same
registry transformation and the same roster broadcast as the `finally`
close path of the connection handler. -/
theorem sweepEvict_eq_closeSession (fails : Id' → Out → Bool)
    (st : ServerState) (cid : Id') :
    sweepEvict fails st cid = closeSession fails st cid := rfl

/-! Concrete sample registry used by witnesses and counterexamples: two
registered sessions with ids 1 and 2. -/

def stA : ServerState :=
  ⟨[1, 2],
   [(1, JVal.obj [("x", JVal.num 5), ("y", JVal.num 7)]),
    (2, JVal.obj [("x", JVal.num 100), ("y", JVal.num 100)])],
   [(1, JVal.str "new player"), (2, JVal.str "new player")],
   [(1, JVal.str "Player1"), (2, JVal.str "Player2")],
   3⟩

/-- A decodable frame whose tag is recognised by no branch of the dispatch. -/
def vBogus : JVal := JVal.obj [("type", JVal.str "bogus")]

/-- A decodable frame with no `type` field at all. -/
def vNoType : JVal := JVal.obj [("foo", JVal.num 1)]

/-- C1 counterexample: from registered session 1 in `stA`, a valid-JSON
frame with the unrecognised tag `bogus` produces no reply at all (the claim
demands a structured `error` reply), and a valid-JSON frame with no `type`
field makes the receive loop stop (the claim says the connection stays in
the Active loop). -/
theorem c1_counterexample :
    (handleFrame failsNone stA 1 (Frame.value vBogus)).2.1 = [] ∧
    (handleFrame failsNone stA 1 (Frame.value vNoType)).2.2 = false :=
  ⟨rfl, rfl⟩

/-- C1 (amended): only a frame that fails JSON decoding produces the
structured `error` reply to the sender, with the loop continuing and the
registry untouched; a decoded frame with an unrecognised tag is silently
ignored (no reply, loop continues, registry untouched); a decoded frame on
which `data['type']` raises (missing key or non-object payload) produces no
reply, leaves the registry untouched in this iteration, and exits the
receive loop, after which the `finally` close path removes the session. -/
theorem c1_error_reply_amended :
    ∀ (st : ServerState) (cid : Id') (raw : String) (v t : JVal),
      (handleFrame failsNone st cid (Frame.malformed raw) =
        (st, [(cid, Out.error "invalid_json" (some (raw.take 200)))], true)) ∧
      (jget v "type" = some t → recognizedType t = false →
        handleFrame failsNone st cid (Frame.value v) = (st, [], true)) ∧
      (jget v "type" = none →
        handleFrame failsNone st cid (Frame.value v) = (st, [], false)) := by
  intro st cid raw v t
  refine ⟨?_, ?_, ?_⟩
  · simp [handleFrame, failsNone]
  · intro hj hr
    cases t with
    | str s =>
      simp only [recognizedType, Bool.or_eq_false_iff, beq_eq_false_iff_ne] at hr
      obtain ⟨⟨⟨h1, h2⟩, h3⟩, h4⟩ := hr
      simp [handleFrame, hj, h1, h2, h3, h4]
    | num n => simp [handleFrame, hj]
    | obj fs => simp [handleFrame, hj]
    | arr es => simp [handleFrame, hj]
  · intro hj
    simp [handleFrame, hj]

/-- C1 witness, instantiating the amended theorem at concrete inputs. -/
theorem c1_error_reply_witness :
    (handleFrame failsNone stA 1 (Frame.malformed "not json") =
      (stA, [(1, Out.error "invalid_json" (some ("not json".take 200)))], true)) ∧
    (handleFrame failsNone stA 1 (Frame.value vBogus) = (stA, [], true)) ∧
    (handleFrame failsNone stA 1 (Frame.value vNoType) = (stA, [], false)) :=
  ⟨(c1_error_reply_amended stA 1 "not json" vBogus (JVal.str "bogus")).1,
   (c1_error_reply_amended stA 1 "not json" vBogus (JVal.str "bogus")).2.1 rfl rfl,
   (c1_error_reply_amended stA 1 "not json" vNoType (JVal.str "bogus")).2.2 rfl⟩

theorem closeSession_of_absent (fails : Id' → Out → Bool) (st : ServerState)
    (cid : Id') (h1 : cid ∉ st.clients)
    (h2 : lookupA st.positions cid = none)
    (h3 : lookupA st.sprites cid = none)
    (h4 : lookupA st.names cid = none) :
    closeSession fails st cid =
      (st, trySendAll fails st.clients
        (Out.user_names (st.names.map (fun p => p.2)))) := by
  unfold closeSession
  rw [if_neg h1, h2, h3, h4]
  simp

/-- C2 counterexample: running the close path twice for session 1 of `stA`
leaves the registry exactly as after the first run (one removal), but the
remaining session 2 receives a `user_names` roster update from *each* run —
two in total, where the claim demands exactly one. -/
theorem c2_counterexample :
    ((closeSession failsNone (closeSession failsNone stA 1).1 1).1 =
      (closeSession failsNone stA 1).1) ∧
    (((closeSession failsNone stA 1).2 ++
        (closeSession failsNone (closeSession failsNone stA 1).1 1).2).countP
      (fun q => decide (q.1 = 2) && isRosterMsg q.2) = 2) :=
  ⟨rfl, rfl⟩

/-- C2 (amended): the registry removal is idempotent — the second execution
of the close path for the same id finds nothing to delete and leaves the
registry unchanged — but the roster broadcast is not guarded, so each
execution sends its own `user_names` update to every then-remaining session:
two executions produce two roster broadcasts, not one. -/
theorem c2_close_idempotent_amended :
    ∀ (fails : Id' → Out → Bool) (st : ServerState) (cid : Id'),
      closeSession fails (closeSession fails st cid).1 cid =
        ((closeSession fails st cid).1,
         trySendAll fails ((closeSession fails st cid).1).clients
           (Out.user_names
             (((closeSession fails st cid).1).names.map (fun p => p.2)))) := by
  intro fails st cid
  exact closeSession_of_absent fails _ cid
    (closeSession_not_mem fails st cid)
    (lookupA_condErase st.positions cid)
    (lookupA_condErase st.sprites cid)
    (lookupA_condErase st.names cid)

/-- C4: a `move{x,y}` frame from registered session `cid` stores the
coordinates verbatim (arbitrary decoded values `vx`, `vy`, no validation) as
that session's position, leaves the rest of the registry unchanged, and
delivers one `move` message with `cid` and the new coordinates to every
other currently-registered session; no message goes back to the sender. -/
theorem c4_move_broadcast :
    ∀ (st : ServerState) (cid : Id') (v vx vy : JVal),
      cid ∈ st.clients →
      jget v "type" = some (JVal.str "move") →
      jget v "x" = some vx → jget v "y" = some vy →
      (handleFrame failsNone st cid (Frame.value v) =
        ({ st with
            positions := setA st.positions cid (JVal.obj [("x", vx), ("y", vy)]) },
         (st.clients.filter (fun o => o ≠ cid)).map
           (fun o => (o, Out.move cid vx vy)),
         true)) ∧
      ∀ q ∈ (handleFrame failsNone st cid (Frame.value v)).2.1, q.1 ≠ cid := by
  intro st cid v vx vy hc hj hx hy
  have heq : handleFrame failsNone st cid (Frame.value v) =
      ({ st with
          positions := setA st.positions cid (JVal.obj [("x", vx), ("y", vy)]) },
       (st.clients.filter (fun o => o ≠ cid)).map
         (fun o => (o, Out.move cid vx vy)),
       true) := by
    simp [handleFrame, hj, hx, hy, trySendAll_failsNone]
  refine ⟨heq, ?_⟩
  rw [heq]
  intro q hq
  simp only [List.mem_map, List.mem_filter] at hq
  obtain ⟨o, ⟨ho, hne⟩, rfl⟩ := hq
  simpa using hne

/-- C4 witness: session 1 of `stA` sends `move` with x = 5 and y = 7. -/
theorem c4_move_broadcast_witness :
    (handleFrame failsNone stA 1
      (Frame.value (JVal.obj
        [("type", JVal.str "move"), ("x", JVal.num 5), ("y", JVal.num 7)])) =
      ({ stA with
          positions := setA stA.positions 1
            (JVal.obj [("x", JVal.num 5), ("y", JVal.num 7)]) },
       (stA.clients.filter (fun o => o ≠ 1)).map
         (fun o => (o, Out.move 1 (JVal.num 5) (JVal.num 7))),
       true)) ∧
    ∀ q ∈ (handleFrame failsNone stA 1
      (Frame.value (JVal.obj
        [("type", JVal.str "move"), ("x", JVal.num 5), ("y", JVal.num 7)]))).2.1,
      q.1 ≠ 1 :=
  c4_move_broadcast stA 1
    (JVal.obj [("type", JVal.str "move"), ("x", JVal.num 5), ("y", JVal.num 7)])
    (JVal.num 5) (JVal.num 7) (by decide) rfl rfl rfl

/-- C5: a `chat{message,style?}` frame from registered session `cid` leaves
the registry completely unchanged and delivers one `chat` message — carrying
the sender's id, current display name, the message text, and the style
payload passed through verbatim with an empty-object default — to every
registered session, the sender included. -/
theorem c5_chat_broadcast :
    ∀ (st : ServerState) (cid : Id') (v nm mv : JVal),
      cid ∈ st.clients →
      lookupA st.names cid = some nm →
      jget v "type" = some (JVal.str "chat") →
      jget v "message" = some mv →
      (handleFrame failsNone st cid (Frame.value v) =
        (st, st.clients.map (fun o =>
          (o, Out.chat cid nm mv ((jget v "style").getD (JVal.obj [])))),
         true)) ∧
      (cid, Out.chat cid nm mv ((jget v "style").getD (JVal.obj []))) ∈
        (handleFrame failsNone st cid (Frame.value v)).2.1 := by
  intro st cid v nm mv hc hn hj hm
  have heq : handleFrame failsNone st cid (Frame.value v) =
      (st, st.clients.map (fun o =>
        (o, Out.chat cid nm mv ((jget v "style").getD (JVal.obj [])))),
       true) := by
    simp [handleFrame, hj, hn, hm, trySendAll_failsNone]
  refine ⟨heq, ?_⟩
  rw [heq]
  exact List.mem_map_of_mem _ hc

/-- C5 witness: session 1 of `stA` sends a `chat` frame with a style. -/
theorem c5_chat_broadcast_witness :
    (handleFrame failsNone stA 1
      (Frame.value (JVal.obj
        [("type", JVal.str "chat"), ("message", JVal.str "hi"),
         ("style", JVal.obj [("color", JVal.str "red")])])) =
      (stA, stA.clients.map (fun o =>
        (o, Out.chat 1 (JVal.str "Player1") (JVal.str "hi")
          ((jget (JVal.obj
            [("type", JVal.str "chat"), ("message", JVal.str "hi"),
             ("style", JVal.obj [("color", JVal.str "red")])]) "style").getD
            (JVal.obj [])))),
       true)) ∧
    (1, Out.chat 1 (JVal.str "Player1") (JVal.str "hi")
      ((jget (JVal.obj
        [("type", JVal.str "chat"), ("message", JVal.str "hi"),
         ("style", JVal.obj [("color", JVal.str "red")])]) "style").getD
        (JVal.obj []))) ∈
      (handleFrame failsNone stA 1
        (Frame.value (JVal.obj
          [("type", JVal.str "chat"), ("message", JVal.str "hi"),
           ("style", JVal.obj [("color", JVal.str "red")])]))).2.1 :=
  c5_chat_broadcast stA 1
    (JVal.obj [("type", JVal.str "chat"), ("message", JVal.str "hi"),
      ("style", JVal.obj [("color", JVal.str "red")])])
    (JVal.str "Player1") (JVal.str "hi") (by decide) rfl rfl rfl

/-- Send oracle failing exactly for recipient id 3 (any message). -/
def failsThree : Id' → Out → Bool := fun o _ => decide (o = 3)

/-- C7: broadcast fan-out isolates per-recipient send failure.  Whatever the
send oracle does, a receive-loop iteration never changes the client
registry (so a failed delivery never evicts the recipient by itself), every
recipient whose send does not fail still receives the message, and the
delivered list is exactly the non-failing recipients in order. -/
theorem c7_send_failure_isolated :
    (∀ (fails : Id' → Out → Bool) (st : ServerState) (cid : Id') (f : Frame),
      ((handleFrame fails st cid f).1).clients = st.clients) ∧
    (∀ (fails : Id' → Out → Bool) (recips : List Id') (m : Out) (o : Id'),
      o ∈ recips → fails o m = false → (o, m) ∈ trySendAll fails recips m) ∧
    (∀ (fails : Id' → Out → Bool) (recips : List Id') (m : Out),
      trySendAll fails recips m =
        (recips.filter (fun o => !(fails o m))).map (fun o => (o, m))) := by
  refine ⟨?_, ?_, ?_⟩
  · intro fails st cid f
    cases f with
    | closed => rfl
    | malformed raw => rfl
    | value v =>
      unfold handleFrame
      repeat' split
      all_goals rfl
  · intro fails recips m o ho hf
    exact mem_trySendAll ho hf
  · intro fails recips m
    exact trySendAll_eq_filter fails recips m

/-- C7 witness: with sends to id 3 failing, a fan-out to ids 1, 2, 3 still
reaches id 2, delivers exactly to ids 1 and 2, and a handler iteration
leaves the registry's client list unchanged. -/
theorem c7_send_failure_isolated_witness :
    ((handleFrame failsThree stA 1 (Frame.value vBogus)).1).clients =
      stA.clients ∧
    (2, Out.ping) ∈ trySendAll failsThree [1, 2, 3] Out.ping ∧
    trySendAll failsThree [1, 2, 3] Out.ping =
      (([1, 2, 3] : List Id').filter
        (fun o => !(failsThree o Out.ping))).map (fun o => (o, Out.ping)) :=
  ⟨c7_send_failure_isolated.1 failsThree stA 1 (Frame.value vBogus),
   c7_send_failure_isolated.2.1 failsThree [1, 2, 3] Out.ping 2
     (by decide) (by decide),
   c7_send_failure_isolated.2.2 failsThree [1, 2, 3] Out.ping⟩

theorem replayLoop_failsNone_map (st' : ServerState) (cid : Id')
    (l : List (Id' × JVal))
    (h : ∀ q ∈ l, q.1 ≠ cid →
      (jget q.2 "x").isSome ∧ (jget q.2 "y").isSome ∧
      (lookupA st'.sprites q.1).isSome ∧ (lookupA st'.names q.1).isSome) :
    replayLoop failsNone st' cid l =
      (l.filter (fun q => q.1 ≠ cid)).map (fun q =>
        (cid, Out.new_player q.1 ((jget q.2 "x").getD (JVal.num 0))
          ((jget q.2 "y").getD (JVal.num 0))
          ((lookupA st'.sprites q.1).getD (JVal.str ""))
          ((lookupA st'.names q.1).getD (JVal.str "")))) := by
  induction l with
  | nil => rfl
  | cons q rest ih =>
    obtain ⟨oid, pos⟩ := q
    by_cases hq : oid = cid
    · subst hq
      simp only [replayLoop, if_pos rfl, List.filter_cons]
      have : (decide ((oid, pos).1 ≠ oid)) = false := by simp
      rw [this]
      exact ih (fun q hq => h q (List.mem_cons_of_mem _ hq))
    · obtain ⟨h1, h2, h3, h4⟩ := h (oid, pos) (List.mem_cons_self _ _) hq
      obtain ⟨px, hpx⟩ := Option.isSome_iff_exists.mp h1
      obtain ⟨py, hpy⟩ := Option.isSome_iff_exists.mp h2
      obtain ⟨sp, hsp⟩ := Option.isSome_iff_exists.mp h3
      obtain ⟨nm, hnm⟩ := Option.isSome_iff_exists.mp h4
      simp only [replayLoop, if_neg hq, hpx, hpy, hsp, hnm, List.filter_cons]
      have : (decide ((oid, pos).1 ≠ cid)) = true := by simpa using hq
      rw [this]
      simp only [failsNone, if_neg Bool.false_ne_true, List.map_cons]
      rw [ih (fun q hq => h q (List.mem_cons_of_mem _ hq))]
      simp [hpx, hpy, hsp, hnm]

/-- C6: a successful handshake with fresh id `cid` appends the session to
the registry with position `(100, 100)`, sprite `new player` and the next
sequential display name, bumps the name counter, announces `new_player`
with that full state to every pre-existing session (never to the newcomer),
and sends the newcomer one `new_player` message per pre-existing session,
carrying that session's stored position, sprite and name. -/
theorem c6_handshake :
    ∀ (st : ServerState) (cid : Id'), WF st → cid ∉ st.clients →
      connect failsNone st cid =
        ({ clients := st.clients ++ [cid]
           positions := st.positions ++
             [(cid, JVal.obj [("x", JVal.num 100), ("y", JVal.num 100)])]
           sprites := st.sprites ++ [(cid, JVal.str "new player")]
           names := st.names ++
             [(cid, JVal.str ("Player" ++ toString st.name_counter))]
           name_counter := st.name_counter + 1 },
         st.clients.map (fun o =>
           (o, Out.new_player cid (JVal.num 100) (JVal.num 100)
             (JVal.str "new player")
             (JVal.str ("Player" ++ toString st.name_counter)))) ++
         st.positions.map (fun q =>
           (cid, Out.new_player q.1 ((jget q.2 "x").getD (JVal.num 0))
             ((jget q.2 "y").getD (JVal.num 0))
             ((lookupA st.sprites q.1).getD (JVal.str ""))
             ((lookupA st.names q.1).getD (JVal.str ""))))) := by
  intro st cid hwf hfresh
  obtain ⟨hnd, hpk, hsk, hnk, hpos⟩ := hwf
  have hpf : cid ∉ st.positions.map (fun p => p.1) := by rw [hpk]; exact hfresh
  have hsf : cid ∉ st.sprites.map (fun p => p.1) := by rw [hsk]; exact hfresh
  have hnf : cid ∉ st.names.map (fun p => p.1) := by rw [hnk]; exact hfresh
  have e1 := setA_fresh st.positions cid
    (JVal.obj [("x", JVal.num 100), ("y", JVal.num 100)]) hpf
  have e2 := setA_fresh st.sprites cid (JVal.str "new player") hsf
  have e3 := setA_fresh st.names cid
    (JVal.str ("Player" ++ toString st.name_counter)) hnf
  have l1 := lookupA_append_self st.positions cid
    (JVal.obj [("x", JVal.num 100), ("y", JVal.num 100)]) hpf
  have l2 := lookupA_append_self st.sprites cid (JVal.str "new player") hsf
  have l3 := lookupA_append_self st.names cid
    (JVal.str ("Player" ++ toString st.name_counter)) hnf
  have hfilter : (st.clients ++ [cid]).filter (fun o => o ≠ cid) = st.clients := by
    rw [List.filter_append]
    have : ([cid].filter (fun o => o ≠ cid)) = [] := by simp
    rw [this, List.append_nil, List.filter_eq_self.mpr]
    intro a ha
    simp only [ne_eq, decide_not, Bool.not_eq_true', decide_eq_false_iff_not]
    exact fun e => hfresh (e ▸ ha)
  have hreplay : replayLoop failsNone
      { clients := st.clients ++ [cid]
        positions := st.positions ++
          [(cid, JVal.obj [("x", JVal.num 100), ("y", JVal.num 100)])]
        sprites := st.sprites ++ [(cid, JVal.str "new player")]
        names := st.names ++
          [(cid, JVal.str ("Player" ++ toString st.name_counter))]
        name_counter := st.name_counter + 1 } cid
      (st.positions ++
        [(cid, JVal.obj [("x", JVal.num 100), ("y", JVal.num 100)])]) =
      st.positions.map (fun q =>
        (cid, Out.new_player q.1 ((jget q.2 "x").getD (JVal.num 0))
          ((jget q.2 "y").getD (JVal.num 0))
          ((lookupA st.sprites q.1).getD (JVal.str ""))
          ((lookupA st.names q.1).getD (JVal.str "")))) := by
    rw [replayLoop_failsNone_map]
    · have hfl : (st.positions ++
          [(cid, JVal.obj [("x", JVal.num 100), ("y", JVal.num 100)])]).filter
            (fun q => q.1 ≠ cid) = st.positions := by
        rw [List.filter_append]
        have : ([(cid, JVal.obj [("x", JVal.num 100), ("y", JVal.num 100)])].filter
            (fun q : Id' × JVal => q.1 ≠ cid)) = [] := by simp
        rw [this, List.append_nil, List.filter_eq_self.mpr]
        intro q hq
        simp only [ne_eq, decide_not, Bool.not_eq_true', decide_eq_false_iff_not]
        exact fun e => hpf (e ▸ List.mem_map_of_mem _ hq)
      rw [hfl]
      refine List.map_congr_left ?_
      intro q hq
      have hqk : q.1 ∈ st.sprites.map (fun p => p.1) := by
        rw [hsk, ← hpk]; exact List.mem_map_of_mem _ hq
      have hqn : q.1 ∈ st.names.map (fun p => p.1) := by
        rw [hnk, ← hpk]; exact List.mem_map_of_mem _ hq
      have a1 := lookupA_append_left st.sprites
        [(cid, JVal.str "new player")] q.1 (lookupA_isSome_of_mem_keys _ _ hqk)
      have a2 := lookupA_append_left st.names
        [(cid, JVal.str ("Player" ++ toString st.name_counter))] q.1
        (lookupA_isSome_of_mem_keys _ _ hqn)
      simp only [a1, a2]
    · intro q hq hne
      rcases List.mem_append.mp hq with hq | hq
      · have hqk : q.1 ∈ st.sprites.map (fun p => p.1) := by
          rw [hsk, ← hpk]; exact List.mem_map_of_mem _ hq
        have hqn : q.1 ∈ st.names.map (fun p => p.1) := by
          rw [hnk, ← hpk]; exact List.mem_map_of_mem _ hq
        refine ⟨(hpos q hq).1, (hpos q hq).2, ?_, ?_⟩
        · rw [lookupA_append_left st.sprites _ q.1
            (lookupA_isSome_of_mem_keys _ _ hqk)]
          exact lookupA_isSome_of_mem_keys _ _ hqk
        · rw [lookupA_append_left st.names _ q.1
            (lookupA_isSome_of_mem_keys _ _ hqn)]
          exact lookupA_isSome_of_mem_keys _ _ hqn
      · simp only [List.mem_singleton] at hq
        exact absurd (by rw [hq]) hne
  unfold connect
  simp only [e1, e2, e3]
  simp only [l1, l2, l3, hreplay]
  simp [jget, List.find?, hfilter, trySendAll_failsNone]
  have hcl : st.clients.filter (fun o => !decide (o = cid)) = st.clients := by
    rw [List.filter_eq_self]
    intro a ha
    simp only [Bool.not_eq_true', decide_eq_false_iff_not]
    exact fun e => hfresh (e ▸ ha)
  rw [hcl]

/-- Concrete one-client registry: session 1 at position (5, 7). -/
def stB : ServerState :=
  ⟨[1],
   [(1, JVal.obj [("x", JVal.num 5), ("y", JVal.num 7)])],
   [(1, JVal.str "S")],
   [(1, JVal.str "Player1")],
   2⟩

/-- C6 witness: a fresh session 7 joins `stB`. -/
theorem c6_handshake_witness :
    WF stB ∧ 7 ∉ stB.clients ∧
    connect failsNone stB 7 =
      ({ clients := stB.clients ++ [7]
         positions := stB.positions ++
           [(7, JVal.obj [("x", JVal.num 100), ("y", JVal.num 100)])]
         sprites := stB.sprites ++ [(7, JVal.str "new player")]
         names := stB.names ++
           [(7, JVal.str ("Player" ++ toString stB.name_counter))]
         name_counter := stB.name_counter + 1 },
       stB.clients.map (fun o =>
         (o, Out.new_player 7 (JVal.num 100) (JVal.num 100)
           (JVal.str "new player")
           (JVal.str ("Player" ++ toString stB.name_counter)))) ++
       stB.positions.map (fun q =>
         (7, Out.new_player q.1 ((jget q.2 "x").getD (JVal.num 0))
           ((jget q.2 "y").getD (JVal.num 0))
           ((lookupA stB.sprites q.1).getD (JVal.str ""))
           ((lookupA stB.names q.1).getD (JVal.str ""))))) :=
  ⟨by constructor
      · decide
      · exact ⟨rfl, rfl, rfl, by decide⟩,
   by decide,
   c6_handshake stB 7
     ⟨by decide, rfl, rfl, rfl, by decide⟩ (by decide)⟩

theorem replayLoop_takeWhile (fails : Id' → Out → Bool) (st' : ServerState)
    (cid : Id') (l : List (Id' × JVal))
    (h : ∀ q ∈ l, q.1 ≠ cid →
      (jget q.2 "x").isSome ∧ (jget q.2 "y").isSome ∧
      (lookupA st'.sprites q.1).isSome ∧ (lookupA st'.names q.1).isSome) :
    replayLoop fails st' cid l =
      (replayLoop failsNone st' cid l).takeWhile
        (fun q => !(fails q.1 q.2)) := by
  induction l with
  | nil => rfl
  | cons q rest ih =>
    obtain ⟨oid, pos⟩ := q
    by_cases hq : oid = cid
    · subst hq
      simp only [replayLoop, if_pos rfl]
      exact ih (fun q hq => h q (List.mem_cons_of_mem _ hq))
    · obtain ⟨h1, h2, h3, h4⟩ := h (oid, pos) (List.mem_cons_self _ _) hq
      obtain ⟨px, hpx⟩ := Option.isSome_iff_exists.mp h1
      obtain ⟨py, hpy⟩ := Option.isSome_iff_exists.mp h2
      obtain ⟨sp, hsp⟩ := Option.isSome_iff_exists.mp h3
      obtain ⟨nm, hnm⟩ := Option.isSome_iff_exists.mp h4
      simp only [replayLoop, if_neg hq, hpx, hpy, hsp, hnm, failsNone,
        if_neg Bool.false_ne_true, List.takeWhile_cons]
      by_cases hf : fails cid (Out.new_player oid px py sp nm)
      · simp [hf]
      · simp only [Bool.not_eq_true] at hf
        simp [hf]
        exact ih (fun q hq => h q (List.mem_cons_of_mem _ hq))

/-- C10: the whole world-state replay to a newcomer sits under one exception
guard, so when one replay send to the newcomer raises, every later replay
message is skipped: whatever the send oracle, the newcomer's registration is
exactly the one produced with no failures at all, and the replayed messages
are precisely the longest failure-free prefix of the full replay. -/
theorem c10_replay_prefix_on_failure :
    ∀ (fails : Id' → Out → Bool) (st : ServerState) (cid : Id'),
      WF st → cid ∉ st.clients →
      ((connect fails st cid).1 = (connect failsNone st cid).1) ∧
      (((connect fails st cid).1).clients = st.clients ++ [cid]) ∧
      (replayLoop fails (connect fails st cid).1 cid
          ((connect fails st cid).1).positions =
        (replayLoop failsNone (connect fails st cid).1 cid
          ((connect fails st cid).1).positions).takeWhile
            (fun q => !(fails q.1 q.2))) := by
  intro fails st cid hwf hfresh
  obtain ⟨hnd, hpk, hsk, hnk, hpos⟩ := hwf
  have hpf : cid ∉ st.positions.map (fun p => p.1) := by rw [hpk]; exact hfresh
  have hsf : cid ∉ st.sprites.map (fun p => p.1) := by rw [hsk]; exact hfresh
  have hnf : cid ∉ st.names.map (fun p => p.1) := by rw [hnk]; exact hfresh
  refine ⟨rfl, rfl, ?_⟩
  apply replayLoop_takeWhile
  intro q hq hne
  have hqp : (connect fails st cid).1.positions =
      st.positions ++ [(cid, JVal.obj [("x", JVal.num 100), ("y", JVal.num 100)])] := by
    show setA st.positions cid _ = _
    exact setA_fresh _ _ _ hpf
  have hqs : (connect fails st cid).1.sprites =
      st.sprites ++ [(cid, JVal.str "new player")] := by
    show setA st.sprites cid _ = _
    exact setA_fresh _ _ _ hsf
  have hqn : (connect fails st cid).1.names =
      st.names ++ [(cid, JVal.str ("Player" ++ toString st.name_counter))] := by
    show setA st.names cid _ = _
    exact setA_fresh _ _ _ hnf
  rw [hqp] at hq
  rcases List.mem_append.mp hq with hq | hq
  · have hqk : q.1 ∈ st.sprites.map (fun p => p.1) := by
      rw [hsk, ← hpk]; exact List.mem_map_of_mem _ hq
    have hqn' : q.1 ∈ st.names.map (fun p => p.1) := by
      rw [hnk, ← hpk]; exact List.mem_map_of_mem _ hq
    refine ⟨(hpos q hq).1, (hpos q hq).2, ?_, ?_⟩
    · rw [hqs, lookupA_append_left st.sprites _ q.1
        (lookupA_isSome_of_mem_keys _ _ hqk)]
      exact lookupA_isSome_of_mem_keys _ _ hqk
    · rw [hqn, lookupA_append_left st.names _ q.1
        (lookupA_isSome_of_mem_keys _ _ hqn')]
      exact lookupA_isSome_of_mem_keys _ _ hqn'
  · simp only [List.mem_singleton] at hq
    exact absurd (by rw [hq]) hne

/-- Send oracle under which every `new_player` send raises. -/
def failsNewPlayer : Id' → Out → Bool := fun _ m =>
  match m with | Out.new_player _ _ _ _ _ => true | _ => false

/-- C10 witness: session 7 joins `stB` while every `new_player` send to it
raises; the replay it receives is the empty prefix, yet it is registered. -/
theorem c10_replay_prefix_on_failure_witness :
    ((connect failsNewPlayer stB 7).1 = (connect failsNone stB 7).1) ∧
    (((connect failsNewPlayer stB 7).1).clients = stB.clients ++ [7]) ∧
    (replayLoop failsNewPlayer (connect failsNewPlayer stB 7).1 7
        ((connect failsNewPlayer stB 7).1).positions =
      (replayLoop failsNone (connect failsNewPlayer stB 7).1 7
        ((connect failsNewPlayer stB 7).1).positions).takeWhile
          (fun q => !(failsNewPlayer q.1 q.2))) :=
  c10_replay_prefix_on_failure failsNewPlayer stB 7
    ⟨by decide, rfl, rfl, rfl, by decide⟩ (by decide)

theorem sweep_pings (fails : Id' → Out → Bool) (l : List Id')
    (h : ∀ o ∈ l, fails o Out.ping = false) (s : ServerState)
    (ms : List (Id' × Out)) :
    l.foldl (sweepStep fails) (s, ms) =
      (s, ms ++ l.map (fun o => (o, Out.ping))) := by
  induction l generalizing ms with
  | nil => simp
  | cons a t ih =>
    have ha := h a (List.mem_cons_self _ _)
    rw [List.foldl_cons]
    have hstep : sweepStep fails (s, ms) a = (s, ms ++ [(a, Out.ping)]) := by
      simp [sweepStep, ha]
    rw [hstep, ih (fun o ho => h o (List.mem_cons_of_mem _ ho))]
    simp

theorem trySendAll_of_not_fails (fails : Id' → Out → Bool)
    (recips : List Id') (m : Out) (h : ∀ o ∈ recips, fails o m = false) :
    trySendAll fails recips m = recips.map (fun o => (o, m)) := by
  rw [trySendAll_eq_filter, List.filter_eq_self.mpr]
  intro a ha
  simp [h a ha]

theorem countP_decide_eq_one (l : List Id') (o : Id') (hnd : l.Nodup)
    (ho : o ∈ l) : l.countP (fun x => decide (x = o)) = 1 := by
  induction l with
  | nil => cases ho
  | cons a t ih =>
    rw [List.nodup_cons] at hnd
    rw [List.countP_cons]
    rcases List.mem_cons.mp ho with h | hmem
    · subst h
      have hz : t.countP (fun x => decide (x = o)) = 0 := by
        rw [List.countP_eq_zero]
        intro x hx
        simp only [decide_eq_true_eq]
        exact fun e => hnd.1 (e ▸ hx)
      simp [hz]
    · have hne : (decide (a = o)) = false := by
        simp only [decide_eq_false_iff_not]
        exact fun e => hnd.1 (e ▸ hmem)
      simp [hne, ih hnd.2 hmem]

/-- C3: the sweeper's eviction computes exactly the same registry
transformation and roster broadcast as the lifecycle close path
(`sweepEvict = closeSession`, extensionally one close path, not a
behaviourally different ad hoc one); and on a tick over registry snapshot
`l1 ++ d :: l2` where only `d`'s ping probe raises, the tick's final state
is a single application of the close path to `d`, the delivered messages
are the successful pings around the close path's own roster broadcast, and
every remaining session receives exactly one `user_names` update. -/
theorem c3_sweeper_tick :
    (∀ (fails : Id' → Out → Bool) (st : ServerState) (cid : Id'),
      sweepEvict fails st cid = closeSession fails st cid) ∧
    ∀ (fails : Id' → Out → Bool) (st : ServerState) (d : Id')
      (l1 l2 : List Id'),
      st.clients = l1 ++ d :: l2 → st.clients.Nodup →
      fails d Out.ping = true →
      (∀ o, o ≠ d → fails o Out.ping = false) →
      (∀ o m, m ≠ Out.ping → fails o m = false) →
      (sweepTick fails st =
        ((closeSession fails st d).1,
         (l1.map (fun o => (o, Out.ping)) ++ (closeSession fails st d).2) ++
           l2.map (fun o => (o, Out.ping)))) ∧
      (∀ o, o ∈ l1 ++ l2 →
        ((sweepTick fails st).2).countP
          (fun q => decide (q.1 = o) && isRosterMsg q.2) = 1) := by
  refine ⟨sweepEvict_eq_closeSession, ?_⟩
  intro fails st d l1 l2 hcl hnd hpd hpo hnp
  rw [hcl] at hnd
  have hd1 : d ∉ l1 := fun h =>
    (List.disjoint_of_nodup_append hnd) h (List.mem_cons_self _ _)
  have hl2 : (d :: l2).Nodup := (List.nodup_append.mp hnd).2.1
  have hd2 : d ∉ l2 := (List.nodup_cons.mp hl2).1
  have hl1ping : ∀ o ∈ l1, fails o Out.ping = false := fun o ho =>
    hpo o (fun e => hd1 (e ▸ ho))
  have hl2ping : ∀ o ∈ l2, fails o Out.ping = false := fun o ho =>
    hpo o (fun e => hd2 (e ▸ ho))
  have hmain : sweepTick fails st =
      ((closeSession fails st d).1,
       (l1.map (fun o => (o, Out.ping)) ++ (closeSession fails st d).2) ++
         l2.map (fun o => (o, Out.ping))) := by
    rw [sweepTick, hcl, List.foldl_append,
      sweep_pings fails l1 hl1ping st [], List.foldl_cons]
    have hstep : sweepStep fails (st, [] ++ l1.map (fun o => (o, Out.ping))) d =
        ((closeSession fails st d).1,
         ([] ++ l1.map (fun o => (o, Out.ping))) ++ (closeSession fails st d).2) := by
      rw [sweepStep, if_pos hpd, sweepEvict_eq_closeSession]
    rw [hstep, sweep_pings fails l2 hl2ping]
    simp
  refine ⟨hmain, ?_⟩
  intro o ho
  rw [hmain]
  have hremain : ((closeSession fails st d).1).clients = l1 ++ l2 := by
    show (if d ∈ st.clients then st.clients.filter (fun o => o ≠ d)
      else st.clients) = l1 ++ l2
    rw [if_pos (by rw [hcl]; exact List.mem_append_right _ (List.mem_cons_self _ _)),
      hcl, List.filter_append, List.filter_cons]
    have hdd : (decide (d ≠ d)) = false := by simp
    rw [hdd]
    simp only [Bool.false_eq_true, if_false]
    rw [List.filter_eq_self.mpr (fun a ha => by
        simp only [ne_eq, decide_not, Bool.not_eq_true', decide_eq_false_iff_not]
        exact fun e => hd1 (e ▸ ha)),
      List.filter_eq_self.mpr (fun a ha => by
        simp only [ne_eq, decide_not, Bool.not_eq_true', decide_eq_false_iff_not]
        exact fun e => hd2 (e ▸ ha))]
  have hclose2 : (closeSession fails st d).2 =
      (l1 ++ l2).map (fun o =>
        (o, Out.user_names ((((closeSession fails st d).1).names).map
          (fun p => p.2)))) := by
    show trySendAll fails ((closeSession fails st d).1).clients _ = _
    rw [hremain, trySendAll_of_not_fails]
    · rfl
    · intro o' _
      exact hnp o' _ (fun h => Out.noConfusion h)
  rw [hclose2, List.countP_append, List.countP_append]
  have hping1 : (l1.map (fun o => (o, Out.ping))).countP
      (fun q => decide (q.1 = o) && isRosterMsg q.2) = 0 := by
    rw [List.countP_eq_zero]
    intro q hq
    obtain ⟨o', _, rfl⟩ := List.mem_map.mp hq
    simp [isRosterMsg]
  have hping2 : (l2.map (fun o => (o, Out.ping))).countP
      (fun q => decide (q.1 = o) && isRosterMsg q.2) = 0 := by
    rw [List.countP_eq_zero]
    intro q hq
    obtain ⟨o', _, rfl⟩ := List.mem_map.mp hq
    simp [isRosterMsg]
  have hnd12 : (l1 ++ l2).Nodup := by
    refine List.Nodup.append (List.nodup_append.mp hnd).1
      (List.nodup_cons.mp hl2).2 ?_
    intro a ha1 ha2
    exact (List.disjoint_of_nodup_append hnd) ha1 (List.mem_cons_of_mem _ ha2)
  have hroster : ((l1 ++ l2).map (fun o =>
      (o, Out.user_names ((((closeSession fails st d).1).names).map
        (fun p => p.2))))).countP
      (fun q => decide (q.1 = o) && isRosterMsg q.2) = 1 := by
    rw [List.countP_map]
    have : ((fun q : Id' × Out => decide (q.1 = o) && isRosterMsg q.2) ∘
        (fun o' => (o', Out.user_names ((((closeSession fails st d).1).names).map
          (fun p => p.2))))) = (fun o' => decide (o' = o)) := by
      funext o'
      simp [isRosterMsg]
    rw [this]
    exact countP_decide_eq_one _ o hnd12 ho
  rw [hping1, hroster, hping2]

/-- Send oracle under which exactly the ping probe to id 3 raises. -/
def failsPing3 : Id' → Out → Bool := fun o m =>
  decide (o = 3) && (match m with | Out.ping => true | _ => false)

/-- Concrete three-client registry: sessions 1, 3, 2 in insertion order. -/
def stC : ServerState :=
  ⟨[1, 3, 2],
   [(1, JVal.obj [("x", JVal.num 1), ("y", JVal.num 2)]),
    (3, JVal.obj [("x", JVal.num 3), ("y", JVal.num 4)]),
    (2, JVal.obj [("x", JVal.num 5), ("y", JVal.num 6)])],
   [(1, JVal.str "a"), (3, JVal.str "b"), (2, JVal.str "c")],
   [(1, JVal.str "Player1"), (3, JVal.str "Player2"), (2, JVal.str "Player3")],
   4⟩

/-- C3 witness: a tick over `stC` in which only the probe of session 3
fails; session 2 receives exactly one roster update. -/
theorem c3_sweeper_tick_witness :
    (sweepTick failsPing3 stC =
      ((closeSession failsPing3 stC 3).1,
       (([1] : List Id').map (fun o => (o, Out.ping)) ++
          (closeSession failsPing3 stC 3).2) ++
         ([2] : List Id').map (fun o => (o, Out.ping)))) ∧
    ((sweepTick failsPing3 stC).2).countP
      (fun q => decide (q.1 = 2) && isRosterMsg q.2) = 1 :=
  ⟨(c3_sweeper_tick.2 failsPing3 stC 3 [1] [2] rfl (by decide) rfl
      (by intro o h; simp [failsPing3, h])
      (by intro o m hm
          cases m <;> first | exact absurd rfl hm | simp [failsPing3])).1,
   (c3_sweeper_tick.2 failsPing3 stC 3 [1] [2] rfl (by decide) rfl
      (by intro o h; simp [failsPing3, h])
      (by intro o m hm
          cases m <;> first | exact absurd rfl hm | simp [failsPing3])).2 2
     (by decide)⟩

theorem length_filter_ne (l : List Id') (a : Id') (hnd : l.Nodup)
    (ha : a ∈ l) : (l.filter (fun x => x ≠ a)).length + 1 = l.length := by
  induction l with
  | nil => cases ha
  | cons b t ih =>
    rw [List.nodup_cons] at hnd
    rw [List.filter_cons]
    rcases List.mem_cons.mp ha with h | hmem
    · subst h
      rw [if_neg (by simp : ¬((decide (a ≠ a)) = true))]
      rw [List.filter_eq_self.mpr (fun x hx => by
        simp only [ne_eq, decide_not, Bool.not_eq_true', decide_eq_false_iff_not]
        exact fun e => hnd.1 (e ▸ hx))]
      simp
    · have hf : (decide (b ≠ a)) = true := by
        simp only [ne_eq, decide_not, Bool.not_eq_true', decide_eq_false_iff_not]
        intro e
        exact hnd.1 (by rw [e]; exact hmem)
      rw [if_pos hf]
      simp only [List.length_cons]
      have hlen := ih hnd.2 hmem
      omega

theorem runEv_clients_length (tr : List Ev) :
    ∀ (st : ServerState), st.clients.Nodup → wfTrace st tr = true →
      (runEv failsNone st tr).clients.length + numDiscs tr =
        st.clients.length + numConns tr := by
  induction tr with
  | nil =>
    intro st _ _
    simp [runEv, numDiscs, numConns]
  | cons e tr ih =>
    intro st hnd hwf
    cases e with
    | conn cid =>
      rw [wfTrace, Bool.and_eq_true, decide_eq_true_eq] at hwf
      obtain ⟨h1, h2⟩ := hwf
      have hcl : ((stepEv failsNone st (Ev.conn cid)).clients) =
          st.clients ++ [cid] := rfl
      have hnd' : (stepEv failsNone st (Ev.conn cid)).clients.Nodup := by
        rw [hcl]
        refine List.Nodup.append hnd (List.nodup_singleton cid) ?_
        intro a ha hb
        rw [List.mem_singleton] at hb
        exact h1 (hb ▸ ha)
      have := ih (stepEv failsNone st (Ev.conn cid)) hnd' h2
      rw [hcl] at this
      show (runEv failsNone (stepEv failsNone st (Ev.conn cid)) tr).clients.length
        + numDiscs (Ev.conn cid :: tr) = _
      have hdc : numDiscs (Ev.conn cid :: tr) = numDiscs tr := by
        simp [numDiscs, List.countP_cons]
      have hcc : numConns (Ev.conn cid :: tr) = numConns tr + 1 := by
        simp [numConns, List.countP_cons]
      rw [hdc, hcc]
      simp only [List.length_append, List.length_singleton] at this
      omega
    | disc cid =>
      rw [wfTrace, Bool.and_eq_true, decide_eq_true_eq] at hwf
      obtain ⟨h1, h2⟩ := hwf
      have hcl : ((stepEv failsNone st (Ev.disc cid)).clients) =
          st.clients.filter (fun o => o ≠ cid) := by
        show (if cid ∈ st.clients then st.clients.filter (fun o => o ≠ cid)
          else st.clients) = _
        rw [if_pos h1]
      have hnd' : (stepEv failsNone st (Ev.disc cid)).clients.Nodup := by
        rw [hcl]
        exact hnd.filter _
      have := ih (stepEv failsNone st (Ev.disc cid)) hnd' h2
      rw [hcl] at this
      have hlen := length_filter_ne st.clients cid hnd h1
      show (runEv failsNone (stepEv failsNone st (Ev.disc cid)) tr).clients.length
        + numDiscs (Ev.disc cid :: tr) = _
      have hdc : numDiscs (Ev.disc cid :: tr) = numDiscs tr + 1 := by
        simp [numDiscs, List.countP_cons]
      have hcc : numConns (Ev.disc cid :: tr) = numConns tr := by
        simp [numConns, List.countP_cons]
      rw [hdc, hcc]
      omega

/-- C8: over any well-formed sequence of completed registrations and
completed removals starting from the empty registry, the number of registry
entries always equals the number of sessions that completed registration
minus the number that completed removal (stated without subtraction:
entries + removals = registrations). -/
theorem c8_registry_size :
    ∀ (tr : List Ev), wfTrace initState tr = true →
      (runEv failsNone initState tr).clients.length + numDiscs tr =
        numConns tr := by
  intro tr hwf
  have := runEv_clients_length tr initState (by decide) hwf
  simpa [initState] using this

/-- C8 witness: two sessions join and the first leaves; the registry holds
one entry, and 1 + 1 removals = 2 registrations. -/
theorem c8_registry_size_witness :
    wfTrace initState [Ev.conn 1, Ev.conn 2, Ev.disc 1] = true ∧
    (runEv failsNone initState [Ev.conn 1, Ev.conn 2, Ev.disc 1]).clients.length
      + numDiscs [Ev.conn 1, Ev.conn 2, Ev.disc 1] =
      numConns [Ev.conn 1, Ev.conn 2, Ev.disc 1] :=
  ⟨by decide, c8_registry_size [Ev.conn 1, Ev.conn 2, Ev.disc 1] (by decide)⟩

theorem mem_fanSnapGo (skip : Id') (m : Out) (l : List Id') (o : Id')
    (ho : o ∈ l) (hne : o ≠ skip) : (o, m) ∈ fanSnapGo skip m l := by
  induction l with
  | nil => cases ho
  | cons a t ih =>
    rcases List.mem_cons.mp ho with h | hmem
    · subst h
      rw [fanSnapGo, if_neg hne]
      exact List.mem_cons_self _ _
    · by_cases ha : a = skip
      · rw [fanSnapGo, if_pos ha]
        exact ih hmem
      · rw [fanSnapGo, if_neg ha]
        exact List.mem_cons_of_mem _ (ih hmem)

/-- C9 counterexample: registry `[1, 2, 3]`, session 1 fanning a message
out with the handler's live-dict loop; a concurrent size-changing removal
(the sweeper evicting session 3) lands before the first iteration, so the
iteration raises (`RuntimeError`, abort flag `true`) and delivers nothing —
session 2, registered before and after the mutation, is skipped, where the
claim promises no crash and no skipped delivery to a stable member. -/
theorem c9_counterexample :
    fanLive [1, 2, 3] 1 Out.ping 0 = ([], true) ∧
    (2 : Id') ∈ [1, 2, 3] ∧ (2 : Id') ∈ [1, 2] ∧
    (2, Out.ping) ∉ (fanLive [1, 2, 3] 1 Out.ping 0).1 :=
  ⟨rfl, by decide, by decide, List.not_mem_nil _⟩

/-- C9 (amended): only the sweeper's fan-outs iterate a materialised
snapshot and are immune to concurrent mutation — whatever the schedule, a
snapshot fan-out never aborts and delivers to every member of the snapshot
other than the skipped originator; the handler's fan-outs iterate the live
dict, and there is a schedule on which a concurrent size-changing mutation
aborts such a fan-out. -/
theorem c9_snapshot_amended :
    (∀ (clients0 : List Id') (skip : Id') (m : Out) (mutAt : Nat),
      ((fanSnap clients0 skip m mutAt).2 = false) ∧
      ∀ o ∈ clients0, o ≠ skip → (o, m) ∈ (fanSnap clients0 skip m mutAt).1) ∧
    (∃ (clients0 : List Id') (skip : Id') (m : Out) (mutAt : Nat),
      (fanLive clients0 skip m mutAt).2 = true) := by
  refine ⟨?_, ⟨[1], 0, Out.ping, 0, rfl⟩⟩
  intro clients0 skip m mutAt
  exact ⟨rfl, fun o ho hne => mem_fanSnapGo skip m clients0 o ho hne⟩

/-- C9 witness: the snapshot fan-out over `[1, 2, 3]` skipping sender 1
does not abort and reaches session 2. -/
theorem c9_snapshot_amended_witness :
    ((fanSnap [1, 2, 3] 1 Out.ping 0).2 = false) ∧
    (2, Out.ping) ∈ (fanSnap [1, 2, 3] 1 Out.ping 0).1 :=
  ⟨(c9_snapshot_amended.1 [1, 2, 3] 1 Out.ping 0).1,
   (c9_snapshot_amended.1 [1, 2, 3] 1 Out.ping 0).2 2 (by decide) (by decide)⟩
